import Mathlib

/-!
Verification of the loss-scale controller in
`mindspore/train/loss_scale_manager.py`.

The Python module defines two controllers:
* `FixedLossScaleManager`: an immutable scale plus a drop-overflow flag.
* `DynamicLossScaleManager`: a numeric state machine updated once per
  training step with a boolean overflow signal.

The embedding below translates the Python code directly.  Python floats
are modelled as rationals (all arithmetic the claims exercise is exact),
Python ints as `Int` (step counters, which are subtracted and taken
modulo the window) or `Nat` (the bad-step counters, which only count up
from zero).  A raised exception is modelled by an explicit result
constructor carrying the state of the object at the moment of the raise,
since in Python the mutations preceding a `raise` persist on `self`.
-/

namespace LossScale

/-- Result of constructing a manager: either the constructed state or the
`ValueError` (spec: `InvalidConfigError`) raised by the argument checks. -/
inductive ConfigResult (α : Type) where
  | ok (s : α)
  | invalidConfig (msg : String)
deriving DecidableEq

/-- State of `DynamicLossScaleManager`.  Field names follow the Python
attributes; `increase_factor` and `decrease_factor` model the attributes
written `increase_ratio` and `decrease_ratio` in the source. -/
structure DState where
  loss_scale : ℚ
  scale_window : ℤ
  scale_factor : ℚ
  increase_factor : ℚ
  decrease_factor : ℚ
  cur_iter : ℤ
  last_overflow_iter : ℤ
  bad_step_max : ℕ
  bad_step : ℕ
deriving DecidableEq

/-- Result of `DynamicLossScaleManager.update_loss_scale`: either the
state after a normal return, or the state left on the object when the
`RuntimeError` for persistent overflow is raised (the raise happens after
the mutations of the call but before `cur_iter` is incremented). -/
inductive UpdateResult where
  | ok (s : DState)
  | persistentOverflow (s : DState)
deriving DecidableEq

/-- `DynamicLossScaleManager.__init__`.  The `init_loss_scale < 1` and
`scale_factor <= 0` checks raise `ValueError` in the source; the
`scale_window` check calls `validator.check_positive_int`, whose code is
outside this slice and which, per its documented behaviour, raises unless
the argument is a positive integer (integrality is carried by the `Int`
type here). -/
def mkDynamic (init_loss_scale : ℚ) (scale_factor : ℚ) (scale_window : ℤ) :
    ConfigResult DState :=
  if init_loss_scale < 1 then
    .invalidConfig "The argument init_loss_scale must be >= 1"
  else if scale_window ≤ 0 then
    .invalidConfig "scale_window must be a positive int"
  else if scale_factor ≤ 0 then
    .invalidConfig "The argument scale_factor must be > 0"
  else
    .ok { loss_scale := init_loss_scale
          scale_window := scale_window
          scale_factor := scale_factor
          increase_factor := scale_factor
          decrease_factor := 1 / scale_factor
          cur_iter := 1
          last_overflow_iter := 0
          bad_step_max := 1000
          bad_step := 0 }

/-- `DynamicLossScaleManager.get_loss_scale`. -/
def DState.get_loss_scale (s : DState) : ℚ := s.loss_scale

/-- `DynamicLossScaleManager.get_drop_overflow_update`: always `True`. -/
def DState.get_drop_overflow_update (_ : DState) : Bool := true

/-- `DynamicLossScaleManager.update_loss_scale`.  On overflow the scale is
floored at 1, the overflow step recorded and the bad-step counter bumped;
otherwise the scale grows when the window divides the gap since the last
overflow and the bad-step counter resets.  If the bad-step counter then
exceeds its maximum a `RuntimeError` is raised, skipping the final
`cur_iter` increment. -/
def DState.update_loss_scale (s : DState) (overflow : Bool) : UpdateResult :=
  let s1 :=
    if overflow then
      { s with loss_scale := max (s.loss_scale * s.decrease_factor) 1
               last_overflow_iter := s.cur_iter
               bad_step := s.bad_step + 1 }
    else
      { s with loss_scale :=
                 if (s.cur_iter - s.last_overflow_iter) % s.scale_window = 0 then
                   s.loss_scale * s.increase_factor
                 else s.loss_scale
               bad_step := 0 }
  if s1.bad_step > s1.bad_step_max then .persistentOverflow s1
  else .ok { s1 with cur_iter := s1.cur_iter + 1 }

/-- Run a finite sequence of `update_loss_scale` calls; stops at the first
call that raises. -/
def runUpdates (s : DState) : List Bool → UpdateResult
  | [] => .ok s
  | b :: bs =>
    match s.update_loss_scale b with
    | .ok t => runUpdates t bs
    | .persistentOverflow e => .persistentOverflow e

/-- A dynamic-manager state reachable from a successful construction by
update calls that all returned normally. -/
def Reachable (s : DState) : Prop :=
  ∃ init f w s0 l, mkDynamic init f w = .ok s0 ∧ runUpdates s0 l = .ok s

/-- Update cells returned by `get_update_cell`; the `nn` cell classes are
outside this slice, so the cells are modelled as opaque values carrying
their construction arguments (modelled from the spec: an opaque
`UpdateDescriptor` the external executor interprets). -/
inductive UpdateCell where
  | fixedLossScaleUpdateCell (loss_scale : ℚ)
  | dynamicLossScaleUpdateCell (loss_scale : ℚ) (scale_factor : ℚ) (scale_window : ℤ)
deriving DecidableEq

/-- `DynamicLossScaleManager.get_update_cell`. -/
def DState.get_update_cell (s : DState) : Option UpdateCell :=
  some (.dynamicLossScaleUpdateCell s.loss_scale s.scale_factor s.scale_window)

/-- State of `FixedLossScaleManager`. -/
structure FixedState where
  loss_scale : ℚ
  drop_overflow_update : Bool
deriving DecidableEq

/-- `FixedLossScaleManager.__init__`: raises `ValueError` when
`loss_scale < 1`. -/
def mkFixed (loss_scale : ℚ) (drop_overflow_update : Bool) :
    ConfigResult FixedState :=
  if loss_scale < 1 then
    .invalidConfig "The argument loss_scale must be >= 1"
  else
    .ok { loss_scale := loss_scale, drop_overflow_update := drop_overflow_update }

/-- `FixedLossScaleManager.get_loss_scale`. -/
def FixedState.get_loss_scale (s : FixedState) : ℚ := s.loss_scale

/-- `FixedLossScaleManager.get_drop_overflow_update`. -/
def FixedState.get_drop_overflow_update (s : FixedState) : Bool :=
  s.drop_overflow_update

/-- `FixedLossScaleManager.update_loss_scale`: the method body is empty,
so the call mutates nothing and never fails. -/
def FixedState.update_loss_scale (s : FixedState) (_overflow : Bool) : FixedState :=
  s

/-- `FixedLossScaleManager.get_update_cell`: `None` when
`drop_overflow_update` is false, otherwise a `FixedLossScaleUpdateCell`
carrying the fixed scale. -/
def FixedState.get_update_cell (s : FixedState) : Option UpdateCell :=
  if ¬ s.drop_overflow_update then none
  else some (.fixedLossScaleUpdateCell s.loss_scale)

/-- State of a freshly constructed dynamic manager after `n` update calls
none of which reported overflow: the scale has been multiplied by the
factor once for each multiple of the window among the first `n` steps. -/
def noOverflowState (init f : ℚ) (w : ℤ) (n : ℕ) : DState :=
  { loss_scale := init * f ^ (n / w.toNat)
    scale_window := w
    scale_factor := f
    increase_factor := f
    decrease_factor := 1 / f
    cur_iter := (n : ℤ) + 1
    last_overflow_iter := 0
    bad_step_max := 1000
    bad_step := 0 }

/-- A fixed example state used to instantiate hypotheses: the result of
`mkDynamic 2 2 1`. -/
def dynEx : DState :=
  ⟨2, 1, 2, 2, 1/2, 1, 0, 1000, 0⟩

/- ---------------------------------------------------------------------
Helper lemmas
--------------------------------------------------------------------- -/

/-- Inversion of the dynamic constructor: it succeeds exactly on the
in-range configurations and the produced state is fully determined. -/
theorem mkDynamic_ok_iff (init f : ℚ) (w : ℤ) (s : DState) :
    mkDynamic init f w = .ok s ↔
      1 ≤ init ∧ 0 < w ∧ 0 < f ∧
      s = ⟨init, w, f, f, 1 / f, 1, 0, 1000, 0⟩ := by
  unfold mkDynamic
  split_ifs with h1 h2 h3 <;> simp_all [eq_comm, le_antisymm_iff]

/-- Inversion of the fixed constructor. -/
theorem mkFixed_ok_iff (ls : ℚ) (dou : Bool) (s : FixedState) :
    mkFixed ls dou = .ok s ↔ 1 ≤ ls ∧ s = ⟨ls, dou⟩ := by
  unfold mkFixed
  split_ifs with h1 <;> simp_all [eq_comm, le_antisymm_iff]

/-- Shape of an overflow call that returns normally. -/
theorem update_true_ok (s : DState) (h : s.bad_step + 1 ≤ s.bad_step_max) :
    s.update_loss_scale true = .ok
      { s with loss_scale := max (s.loss_scale * s.decrease_factor) 1,
               last_overflow_iter := s.cur_iter,
               bad_step := s.bad_step + 1,
               cur_iter := s.cur_iter + 1 } := by
  unfold DState.update_loss_scale
  simp [Nat.not_lt.mpr h]

/-- Shape of an overflow call that raises: the mutations of the call have
happened, `cur_iter` alone is left unchanged. -/
theorem update_true_err (s : DState) (h : s.bad_step_max < s.bad_step + 1) :
    s.update_loss_scale true = .persistentOverflow
      { s with loss_scale := max (s.loss_scale * s.decrease_factor) 1,
               last_overflow_iter := s.cur_iter,
               bad_step := s.bad_step + 1 } := by
  unfold DState.update_loss_scale
  simp [h]

/-- Shape of a non-overflow call: it always returns normally, because the
reset bad-step counter can never exceed the (natural) maximum. -/
theorem update_false_eq (s : DState) :
    s.update_loss_scale false = .ok
      { s with loss_scale :=
                 if (s.cur_iter - s.last_overflow_iter) % s.scale_window = 0 then
                   s.loss_scale * s.increase_factor
                 else s.loss_scale,
               bad_step := 0,
               cur_iter := s.cur_iter + 1 } := by
  unfold DState.update_loss_scale
  simp

/-- Running a concatenation of inputs runs the pieces in order, stopping
at the first raise. -/
theorem runUpdates_append (s : DState) (l1 l2 : List Bool) :
    runUpdates s (l1 ++ l2) =
      match runUpdates s l1 with
      | .ok t => runUpdates t l2
      | .persistentOverflow e => .persistentOverflow e := by
  induction l1 generalizing s with
  | nil => simp [runUpdates]
  | cons b bs ih =>
    simp only [List.cons_append, runUpdates]
    cases h : s.update_loss_scale b with
    | ok t => simp [ih]
    | persistentOverflow e => simp

/-- One non-overflow step from the canonical no-overflow state. -/
theorem update_false_noOverflow (init f : ℚ) (w : ℤ) (hw : 0 < w) (n : ℕ) :
    (noOverflowState init f w n).update_loss_scale false =
      .ok (noOverflowState init f w (n + 1)) := by
  have hwn : w = (w.toNat : ℤ) := (Int.toNat_of_nonneg hw.le).symm
  have hcond : ((noOverflowState init f w n).cur_iter -
      (noOverflowState init f w n).last_overflow_iter) %
      (noOverflowState init f w n).scale_window = 0 ↔ w.toNat ∣ (n + 1) := by
    show (((n : ℤ) + 1) - 0) % w = 0 ↔ _
    rw [hwn]
    have h1 : ((n : ℤ) + 1 - 0) = ((n + 1 : ℕ) : ℤ) := by push_cast; ring
    rw [h1, ← Int.natCast_mod, Int.natCast_eq_zero]
    exact (Nat.dvd_iff_mod_eq_zero).symm
  rw [update_false_eq]
  congr 1
  by_cases hd : w.toNat ∣ (n + 1)
  · rw [if_pos (hcond.mpr hd)]
    show DState.mk _ _ _ _ _ _ _ _ _ = _
    unfold noOverflowState
    rw [Nat.succ_div, if_pos hd, pow_succ]
    congr 1
    push_cast
    ring
  · rw [if_neg (fun h => hd (hcond.mp h))]
    show DState.mk _ _ _ _ _ _ _ _ _ = _
    unfold noOverflowState
    rw [Nat.succ_div, if_neg hd]
    congr 1

/-- The canonical no-overflow state at step 0 is the freshly constructed
state. -/
theorem noOverflowState_zero (init f : ℚ) (w : ℤ) :
    noOverflowState init f w 0 = ⟨init, w, f, f, 1 / f, 1, 0, 1000, 0⟩ := by
  simp [noOverflowState]

/-- A run of `n` non-overflow calls from a fresh state reaches the
canonical no-overflow state. -/
theorem runUpdates_replicate_false (init f : ℚ) (w : ℤ) (hw : 0 < w) (n : ℕ) :
    runUpdates (noOverflowState init f w 0) (List.replicate n false) =
      .ok (noOverflowState init f w n) := by
  induction n with
  | zero => rfl
  | succ n ih =>
    rw [List.replicate_succ', runUpdates_append, ih]
    show (match (noOverflowState init f w n).update_loss_scale false with
          | .ok t => runUpdates t []
          | .persistentOverflow e => .persistentOverflow e) = _
    rw [update_false_noOverflow init f w hw n]
    rfl

/-- A run of `k ≤ 1000` overflow calls from a state with a zeroed
bad-step counter returns normally at every call, counts the calls, and
preserves the configuration fields. -/
theorem runUpdates_replicate_true (s : DState) (hmax : s.bad_step_max = 1000)
    (h0 : s.bad_step = 0) (k : ℕ) (hk : k ≤ 1000) :
    ∃ t, runUpdates s (List.replicate k true) = .ok t ∧
      t.bad_step = k ∧ t.bad_step_max = 1000 ∧
      t.scale_factor = s.scale_factor ∧ t.decrease_factor = s.decrease_factor ∧
      t.increase_factor = s.increase_factor ∧ t.scale_window = s.scale_window ∧
      t.cur_iter = s.cur_iter + k := by
  induction k with
  | zero =>
    exact ⟨s, rfl, h0, hmax, rfl, rfl, rfl, rfl, by push_cast; ring⟩
  | succ k ih =>
    obtain ⟨t, hrun, hb, hbm, hsf, hdf, hif, hsw, hci⟩ := ih (by omega)
    refine ⟨{ t with loss_scale := max (t.loss_scale * t.decrease_factor) 1, last_overflow_iter := t.cur_iter, bad_step := t.bad_step + 1, cur_iter := t.cur_iter + 1 }, ?_, ?_, ?_, ?_, ?_, ?_, ?_, ?_⟩
    · rw [List.replicate_succ', runUpdates_append, hrun]
      show (match t.update_loss_scale true with
            | .ok u => runUpdates u []
            | .persistentOverflow e => .persistentOverflow e) = _
      rw [update_true_ok t (by omega)]
      rfl
    · simp [hb]
    · simp [hbm]
    · simp [hsf]
    · simp [hdf]
    · simp [hif]
    · simp [hsw]
    · simp only [hci]
      push_cast
      ring

/-- Configuration facts every reachable dynamic-manager state satisfies:
the fixed bad-step ceiling, the relation of the stored update factors to
`scale_factor`, positivity of the configuration, and the step-counter
ordering. -/
def StableInv (s : DState) : Prop :=
  s.bad_step_max = 1000 ∧ s.increase_factor = s.scale_factor ∧
  s.decrease_factor = 1 / s.scale_factor ∧ 0 < s.scale_factor ∧
  0 < s.scale_window ∧ 0 ≤ s.last_overflow_iter ∧ s.last_overflow_iter < s.cur_iter

/-- Construction establishes the stable invariant. -/
theorem stableInv_mk (init f : ℚ) (w : ℤ) (s : DState)
    (h : mkDynamic init f w = .ok s) : StableInv s := by
  obtain ⟨-, hw, hf, rfl⟩ := (mkDynamic_ok_iff init f w s).mp h
  exact ⟨rfl, rfl, rfl, hf, hw, le_refl 0, Int.zero_lt_one⟩

/-- A normally returning update call preserves the stable invariant. -/
theorem stableInv_update (s s' : DState) (b : Bool) (h : StableInv s)
    (hu : s.update_loss_scale b = .ok s') : StableInv s' := by
  obtain ⟨h1, h2, h3, h4, h5, h6, h7⟩ := h
  unfold DState.update_loss_scale at hu
  cases b
  · simp only [Bool.false_eq_true, if_false] at hu
    split at hu
    · exact absurd hu (by simp)
    · injection hu with hu
      subst hu
      exact ⟨h1, h2, h3, h4, h5, h6, by dsimp; omega⟩
  · simp only [if_true] at hu
    split at hu
    · exact absurd hu (by simp)
    · injection hu with hu
      subst hu
      exact ⟨h1, h2, h3, h4, h5, by dsimp; omega, by dsimp; omega⟩

/-- A normally returning run preserves the stable invariant. -/
theorem stableInv_run (s : DState) (l : List Bool) (s' : DState)
    (h : StableInv s) (hrun : runUpdates s l = .ok s') : StableInv s' := by
  induction l generalizing s with
  | nil =>
    injection hrun with hrun
    exact hrun ▸ h
  | cons b bs ih =>
    unfold runUpdates at hrun
    split at hrun
    · next t ht => exact ih t (stableInv_update s t b h ht) hrun
    · exact absurd hrun (by simp)

/-- Every reachable state satisfies the stable invariant. -/
theorem reachable_stableInv (s : DState) (h : Reachable s) : StableInv s := by
  obtain ⟨init, f, w, s0, l, hmk, hrun⟩ := h
  exact stableInv_run s0 l s (stableInv_mk init f w s0 hmk) hrun

/-- One normally returning update call keeps the scale at least 1 when
the stored increase factor is at least 1. -/
theorem scale_floor_update (s s' : DState) (b : Bool) (h1 : 1 ≤ s.loss_scale)
    (h2 : 1 ≤ s.increase_factor) (hu : s.update_loss_scale b = .ok s') :
    1 ≤ s'.loss_scale ∧ 1 ≤ s'.increase_factor := by
  unfold DState.update_loss_scale at hu
  cases b
  · simp only [Bool.false_eq_true, if_false] at hu
    split at hu
    · exact absurd hu (by simp)
    · injection hu with hu
      subst hu
      refine ⟨?_, h2⟩
      dsimp only
      split
      · nlinarith
      · exact h1
  · simp only [if_true] at hu
    split at hu
    · exact absurd hu (by simp)
    · injection hu with hu
      subst hu
      exact ⟨le_max_right _ _, h2⟩

/-- A normally returning run keeps the scale at least 1 when the stored
increase factor is at least 1. -/
theorem scale_floor_run (s : DState) (l : List Bool) (s' : DState)
    (h1 : 1 ≤ s.loss_scale) (h2 : 1 ≤ s.increase_factor)
    (hrun : runUpdates s l = .ok s') :
    1 ≤ s'.loss_scale ∧ 1 ≤ s'.increase_factor := by
  induction l generalizing s with
  | nil =>
    injection hrun with hrun
    subst hrun
    exact ⟨h1, h2⟩
  | cons b bs ih =>
    unfold runUpdates at hrun
    split at hrun
    · next t ht =>
      obtain ⟨g1, g2⟩ := scale_floor_update s t b h1 h2 ht
      exact ih t g1 g2 hrun
    · exact absurd hrun (by simp)

/-- Folding the fixed manager's no-op update over any input list returns
the starting state. -/
theorem fixed_foldl_id (s : FixedState) (l : List Bool) :
    l.foldl FixedState.update_loss_scale s = s := by
  induction l with
  | nil => rfl
  | cons b bs ih => exact ih

/- ---------------------------------------------------------------------
Claim theorems
--------------------------------------------------------------------- -/

/-- Claim C1, counterexample: the claim admits every construction with
`scaleFactor > 0`, but with `initialScale = 1`, `scaleFactor = 1/2`,
`scaleWindow = 1` construction succeeds (all three claimed validity
conditions hold) and a single non-overflow call fires the growth branch
and multiplies the scale by `1/2`, leaving `getScale() = 1/2 < 1`. -/
theorem C1_counterexample :
    (1 : ℚ) ≥ 1 ∧ (1/2 : ℚ) > 0 ∧ (1 : ℤ) ≥ 1 ∧
    mkDynamic 1 (1/2) 1 = .ok ⟨1, 1, 1/2, 1/2, 2, 1, 0, 1000, 0⟩ ∧
    runUpdates ⟨1, 1, 1/2, 1/2, 2, 1, 0, 1000, 0⟩ [false] =
      .ok ⟨1/2, 1, 1/2, 1/2, 2, 2, 0, 1000, 0⟩ ∧
    ¬ (1 ≤ DState.get_loss_scale ⟨1/2, 1, 1/2, 1/2, 2, 2, 0, 1000, 0⟩) := by
  refine ⟨by norm_num, by norm_num, by norm_num, by norm_num [mkDynamic], ?_,
    by norm_num [DState.get_loss_scale]⟩
  norm_num [runUpdates, DState.update_loss_scale]

/-- Claim C1, amended: for every valid construction whose scale factor is
moreover at least 1 (in particular every integral factor accepted by the
constructor, such as the documented `int` factors), `getScale()` is at
least 1 after every `updateScale` call that returns normally, for every
boolean input sequence. -/
theorem C1_scale_floor_amended (init f : ℚ) (w : ℤ) (s0 : DState)
    (hmk : mkDynamic init f w = .ok s0) (hf : 1 ≤ f) (l : List Bool)
    (s : DState) (hrun : runUpdates s0 l = .ok s) :
    1 ≤ s.get_loss_scale := by
  obtain ⟨hinit, hw, hf0, rfl⟩ := (mkDynamic_ok_iff init f w s0).mp hmk
  exact (scale_floor_run _ l s hinit hf hrun).1

/-- Witness for C1 amended: from `mkDynamic 2 2 1`, one non-overflow call
returns normally and the resulting scale is at least 1. -/
theorem C1_scale_floor_amended_witness :
    1 ≤ DState.get_loss_scale ⟨4, 1, 2, 2, 1/2, 2, 0, 1000, 0⟩ :=
  C1_scale_floor_amended 2 2 1 dynEx (by rfl) (by norm_num) [false] _
    (by norm_num [runUpdates, DState.update_loss_scale, dynEx])

/-- Claim C2: from every reachable state, an overflow call — whether it
returns normally or raises — sets the scale to
`max(scale * (1/scaleFactor), 1)`, sets `last_overflow_iter` to the
pre-call `cur_iter`, and increments `bad_step` by exactly 1. -/
theorem C2_overflow_backoff (s : DState) (hr : Reachable s) (s' : DState)
    (h : s.update_loss_scale true = .ok s' ∨
         s.update_loss_scale true = .persistentOverflow s') :
    s'.loss_scale = max (s.loss_scale * (1 / s.scale_factor)) 1 ∧
    s'.last_overflow_iter = s.cur_iter ∧
    s'.bad_step = s.bad_step + 1 := by
  obtain ⟨-, -, hdf, -, -, -, -⟩ := reachable_stableInv s hr
  by_cases hc : s.bad_step_max < s.bad_step + 1
  · rw [update_true_err s hc] at h
    rcases h with h | h
    · exact absurd h (by simp)
    · injection h with h
      subst h
      refine ⟨?_, rfl, rfl⟩
      show max (s.loss_scale * s.decrease_factor) 1 = _
      rw [hdf]
  · rw [update_true_ok s (by omega)] at h
    rcases h with h | h
    · injection h with h
      subst h
      refine ⟨?_, rfl, rfl⟩
      show max (s.loss_scale * s.decrease_factor) 1 = _
      rw [hdf]
    · exact absurd h (by simp)

/-- Witness for C2: the overflow call on the freshly constructed
`mkDynamic 2 2 1` state halves the scale to `max(2 * (1/2), 1) = 1`,
records the overflow step and bumps the counter. -/
theorem C2_overflow_backoff_witness :
    (⟨1, 1, 2, 2, 1/2, 2, 1, 1000, 1⟩ : DState).loss_scale =
      max (dynEx.loss_scale * (1 / dynEx.scale_factor)) 1 ∧
    (⟨1, 1, 2, 2, 1/2, 2, 1, 1000, 1⟩ : DState).last_overflow_iter = dynEx.cur_iter ∧
    (⟨1, 1, 2, 2, 1/2, 2, 1, 1000, 1⟩ : DState).bad_step = dynEx.bad_step + 1 :=
  C2_overflow_backoff dynEx ⟨2, 2, 1, dynEx, [], by rfl, rfl⟩ _
    (Or.inl (by norm_num [DState.update_loss_scale, dynEx]))

/-- Claim C3: with no overflow ever reported, a fresh dynamic manager
multiplies the scale by the factor exactly `n / scaleWindow` times over
`n` calls, the multiplication firing exactly on every `scaleWindow`-th
call and on no other; concretely, from `initialScale = 1024`,
`scaleFactor = 2`, `scaleWindow = 3`, three non-overflow calls leave the
scale at 2048, and a following overflow call drops it to 1024 and sets
`last_overflow_iter` to the then-current step (4). -/
theorem C3_growth_cadence :
    (∀ (init f : ℚ) (w : ℤ) (s0 : DState), mkDynamic init f w = .ok s0 →
      (∀ n : ℕ, runUpdates s0 (List.replicate n false) =
        .ok (noOverflowState init f w n)) ∧
      (∀ n : ℕ, (noOverflowState init f w n).loss_scale =
        init * f ^ (n / w.toNat)) ∧
      (∀ k : ℕ, (noOverflowState init f w (k + 1)).loss_scale =
        if w.toNat ∣ (k + 1) then (noOverflowState init f w k).loss_scale * f
        else (noOverflowState init f w k).loss_scale)) ∧
    (mkDynamic 1024 2 3 = .ok ⟨1024, 3, 2, 2, 1/2, 1, 0, 1000, 0⟩ ∧
      runUpdates ⟨1024, 3, 2, 2, 1/2, 1, 0, 1000, 0⟩ [false, false, false] =
        .ok ⟨2048, 3, 2, 2, 1/2, 4, 0, 1000, 0⟩ ∧
      DState.update_loss_scale ⟨2048, 3, 2, 2, 1/2, 4, 0, 1000, 0⟩ true =
        .ok ⟨1024, 3, 2, 2, 1/2, 5, 4, 1000, 1⟩) := by
  constructor
  · intro init f w s0 hmk
    obtain ⟨hinit, hw, hf, rfl⟩ := (mkDynamic_ok_iff init f w s0).mp hmk
    refine ⟨?_, fun n => rfl, ?_⟩
    · intro n
      rw [← noOverflowState_zero init f w]
      exact runUpdates_replicate_false init f w hw n
    · intro k
      by_cases hd : w.toNat ∣ (k + 1)
      · rw [if_pos hd]
        show init * f ^ ((k + 1) / w.toNat) = init * f ^ (k / w.toNat) * f
        rw [Nat.succ_div, if_pos hd, pow_succ, mul_assoc]
      · rw [if_neg hd]
        show init * f ^ ((k + 1) / w.toNat) = init * f ^ (k / w.toNat)
        rw [Nat.succ_div, if_neg hd, Nat.add_zero]
  · refine ⟨by norm_num [mkDynamic], ?_, ?_⟩
    · norm_num [runUpdates, DState.update_loss_scale]
    · norm_num [DState.update_loss_scale]

/-- Witness for C3: the universal cadence statement evaluated on the
concrete configuration `1024, 2, 3` and three calls. -/
theorem C3_growth_cadence_witness :
    runUpdates ⟨1024, 3, 2, 2, 1/2, 1, 0, 1000, 0⟩ (List.replicate 3 false) =
      .ok (noOverflowState 1024 2 3 3) :=
  (C3_growth_cadence.1 1024 2 3 ⟨1024, 3, 2, 2, 1/2, 1, 0, 1000, 0⟩
    (by norm_num [mkDynamic])).1 3

/-- Claim C4: from a reachable state with a zeroed consecutive-overflow
counter, every run of up to `maxConsecutiveOverflow = 1000` overflow
calls returns normally, and the `(1000 + 1)`-th consecutive overflow call
raises the persistent-overflow error; on that raising call the scale, the
recorded overflow step and the counter have already been updated. -/
theorem C4_persistent_overflow_escalation (s : DState) (hr : Reachable s)
    (h0 : s.bad_step = 0) :
    (∀ k : ℕ, k ≤ 1000 → ∃ t, runUpdates s (List.replicate k true) = .ok t) ∧
    ∃ t e, runUpdates s (List.replicate 1000 true) = .ok t ∧
      t.update_loss_scale true = .persistentOverflow e ∧
      runUpdates s (List.replicate 1001 true) = .persistentOverflow e ∧
      e.loss_scale = max (t.loss_scale * (1 / t.scale_factor)) 1 ∧
      e.last_overflow_iter = t.cur_iter ∧
      e.bad_step = t.bad_step + 1 ∧ t.bad_step = 1000 := by
  obtain ⟨hmax, hif, hdf, hsf, hsw, hlo, hlc⟩ := reachable_stableInv s hr
  constructor
  · intro k hk
    obtain ⟨t, hrun, -⟩ := runUpdates_replicate_true s hmax h0 k hk
    exact ⟨t, hrun⟩
  · obtain ⟨t, hrun, hb, hbm, htsf, htdf, htif, htsw, htci⟩ :=
      runUpdates_replicate_true s hmax h0 1000 (le_refl 1000)
    have herr := update_true_err t (by omega)
    refine ⟨t, _, hrun, herr, ?_, ?_, rfl, rfl, hb⟩
    · have h1001 : (1001 : ℕ) = 1000 + 1 := rfl
      rw [h1001, List.replicate_succ', runUpdates_append, hrun]
      show (match t.update_loss_scale true with
            | .ok u => runUpdates u []
            | .persistentOverflow e => .persistentOverflow e) = _
      rw [herr]
    · show max (t.loss_scale * t.decrease_factor) 1 = _
      rw [htdf, hdf, htsf]

/-- Witness for C4: the escalation run from the freshly constructed
`mkDynamic 2 2 1` state. -/
theorem C4_persistent_overflow_escalation_witness :
    ∃ t e, runUpdates dynEx (List.replicate 1000 true) = .ok t ∧
      DState.update_loss_scale t true = .persistentOverflow e ∧
      runUpdates dynEx (List.replicate 1001 true) = .persistentOverflow e ∧
      e.loss_scale = max (t.loss_scale * (1 / t.scale_factor)) 1 ∧
      e.last_overflow_iter = t.cur_iter ∧
      e.bad_step = t.bad_step + 1 ∧ t.bad_step = 1000 :=
  (C4_persistent_overflow_escalation dynEx ⟨2, 2, 1, dynEx, [], by rfl, rfl⟩ rfl).2

/-- Claim C5, counterexample: on the raising call `cur_iter` is NOT
incremented — the `raise` precedes the increment, so the state left on
the object carries the pre-call `cur_iter`.  Reached concretely from
`mkDynamic 2 2 1` by 1000 overflow calls followed by the raising one. -/
theorem C5_counterexample :
    ∃ t e, runUpdates dynEx (List.replicate 1000 true) = .ok t ∧
      Reachable t ∧
      t.update_loss_scale true = .persistentOverflow e ∧
      e.cur_iter = t.cur_iter ∧ ¬ e.cur_iter = t.cur_iter + 1 := by
  obtain ⟨t, hrun, hb, hbm, -, -, -, -, -⟩ :=
    runUpdates_replicate_true dynEx (by rfl) (by rfl) 1000 (le_refl 1000)
  have herr := update_true_err t (by omega)
  refine ⟨t, _, hrun, ⟨2, 2, 1, dynEx, List.replicate 1000 true, by rfl, hrun⟩,
    herr, rfl, ?_⟩
  intro h
  have h2 : t.cur_iter = t.cur_iter + 1 := h
  omega

/-- Claim C5, amended: a call that returns normally increments `cur_iter`
by exactly 1 as its last step; the call on which the persistent-overflow
error is raised leaves `cur_iter` unchanged, because the raise skips the
increment. -/
theorem C5_step_increment_amended (s : DState) (b : Bool) :
    (∀ s', s.update_loss_scale b = .ok s' → s'.cur_iter = s.cur_iter + 1) ∧
    (∀ e, s.update_loss_scale b = .persistentOverflow e → e.cur_iter = s.cur_iter) := by
  cases b
  · constructor
    · intro s' hs'
      rw [update_false_eq] at hs'
      injection hs' with h
      subst h
      rfl
    · intro e he
      rw [update_false_eq] at he
      exact absurd he (by simp)
  · constructor
    · intro s' hs'
      by_cases hc : s.bad_step_max < s.bad_step + 1
      · rw [update_true_err s hc] at hs'
        exact absurd hs' (by simp)
      · rw [update_true_ok s (by omega)] at hs'
        injection hs' with h
        subst h
        rfl
    · intro e he
      by_cases hc : s.bad_step_max < s.bad_step + 1
      · rw [update_true_err s hc] at he
        injection he with h
        subst h
        rfl
      · rw [update_true_ok s (by omega)] at he
        exact absurd he (by simp)

/-- Witness for C5 amended: one normally returning call on the
`mkDynamic 2 2 1` state moves `cur_iter` from 1 to 2. -/
theorem C5_step_increment_amended_witness :
    (⟨4, 1, 2, 2, 1/2, 2, 0, 1000, 0⟩ : DState).cur_iter = dynEx.cur_iter + 1 :=
  (C5_step_increment_amended dynEx false).1 _
    (by norm_num [DState.update_loss_scale, dynEx])

/-- Claim C6: from every reachable state, a non-overflow call returns
normally and resets the consecutive-overflow counter to 0, regardless of
the prior streak length. -/
theorem C6_reset_on_recovery (s : DState) (_hr : Reachable s) :
    ∃ r, s.update_loss_scale false = .ok r ∧ r.bad_step = 0 :=
  ⟨_, update_false_eq s, rfl⟩

/-- Witness for C6 on the freshly constructed `mkDynamic 2 2 1` state. -/
theorem C6_reset_on_recovery_witness :
    ∃ r, DState.update_loss_scale dynEx false = .ok r ∧ r.bad_step = 0 :=
  C6_reset_on_recovery dynEx ⟨2, 2, 1, dynEx, [], by rfl, rfl⟩

/-- Claim C7: construction fails with the invalid-configuration error
exactly on the out-of-range configurations — dynamic: scale below 1,
factor at most 0 (including 0), or window below 1; fixed: scale below 1 —
and succeeds on every in-range configuration. -/
theorem C7_construction_validation :
    (∀ (init f : ℚ) (w : ℤ),
      (∃ s, mkDynamic init f w = .ok s) ↔ (1 ≤ init ∧ 0 < f ∧ 1 ≤ w)) ∧
    (∀ (init f : ℚ) (w : ℤ), ¬ (1 ≤ init ∧ 0 < f ∧ 1 ≤ w) →
      ∃ msg, mkDynamic init f w = .invalidConfig msg) ∧
    (∀ (ls : ℚ) (dou : Bool), (∃ s, mkFixed ls dou = .ok s) ↔ 1 ≤ ls) ∧
    (∀ (ls : ℚ) (dou : Bool), ls < 1 →
      ∃ msg, mkFixed ls dou = .invalidConfig msg) := by
  refine ⟨?_, ?_, ?_, ?_⟩
  · intro init f w
    constructor
    · rintro ⟨s, hs⟩
      obtain ⟨h1, h2, h3, -⟩ := (mkDynamic_ok_iff init f w s).mp hs
      exact ⟨h1, h3, by omega⟩
    · rintro ⟨h1, h2, h3⟩
      exact ⟨_, (mkDynamic_ok_iff init f w _).mpr ⟨h1, by omega, h2, rfl⟩⟩
  · intro init f w h
    unfold mkDynamic
    split_ifs with h1 h2 h3
    · exact ⟨_, rfl⟩
    · exact ⟨_, rfl⟩
    · exact ⟨_, rfl⟩
    · exact absurd ⟨not_lt.mp h1, not_le.mp h3, by omega⟩ h
  · intro ls dou
    simp only [mkFixed_ok_iff, exists_eq_right]
  · intro ls dou h
    unfold mkFixed
    rw [if_pos h]
    exact ⟨_, rfl⟩

/-- Witness for C7: the in-range configuration `1024, 2, 3` constructs
successfully. -/
theorem C7_construction_validation_witness :
    ∃ s, mkDynamic 1024 2 3 = .ok s :=
  (C7_construction_validation.1 1024 2 3).mpr (by norm_num)

/-- Claim C8: the fixed manager's update is a no-op — after any sequence
of boolean inputs the state is unchanged, `get_loss_scale` returns the
configured scale and `get_drop_overflow_update` the configured flag. -/
theorem C8_fixed_noop (ls : ℚ) (dou : Bool) (s : FixedState)
    (hmk : mkFixed ls dou = .ok s) (l : List Bool) :
    l.foldl FixedState.update_loss_scale s = s ∧
    (l.foldl FixedState.update_loss_scale s).get_loss_scale = ls ∧
    (l.foldl FixedState.update_loss_scale s).get_drop_overflow_update = dou := by
  obtain ⟨-, rfl⟩ := (mkFixed_ok_iff ls dou s).mp hmk
  refine ⟨fixed_foldl_id _ l, ?_, ?_⟩ <;> rw [fixed_foldl_id]
  · rfl
  · rfl

/-- Witness for C8 on `mkFixed 128 true` and a three-call history. -/
theorem C8_fixed_noop_witness :
    [true, false, true].foldl FixedState.update_loss_scale ⟨128, true⟩ =
      (⟨128, true⟩ : FixedState) ∧
    ([true, false, true].foldl FixedState.update_loss_scale
      (⟨128, true⟩ : FixedState)).get_loss_scale = 128 ∧
    ([true, false, true].foldl FixedState.update_loss_scale
      (⟨128, true⟩ : FixedState)).get_drop_overflow_update = true :=
  C8_fixed_noop 128 true ⟨128, true⟩ (by norm_num [mkFixed]) [true, false, true]

/-- Claim C9: for every fixed manager and any overflow history,
`get_update_cell` is `none` exactly when `drop_overflow_update` is false,
and when the flag is true it is a descriptor carrying the fixed scale. -/
theorem C9_fixed_update_cell (s : FixedState) (l : List Bool) :
    ((l.foldl FixedState.update_loss_scale s).get_update_cell = none ↔
      s.drop_overflow_update = false) ∧
    (s.drop_overflow_update = true →
      (l.foldl FixedState.update_loss_scale s).get_update_cell =
        some (UpdateCell.fixedLossScaleUpdateCell s.loss_scale)) := by
  obtain ⟨ls, dou⟩ := s
  rw [fixed_foldl_id]
  cases dou <;> simp [FixedState.get_update_cell]

/-- Witness for C9 on the configuration of concrete scenario C. -/
theorem C9_fixed_update_cell_witness :
    ([true].foldl FixedState.update_loss_scale
      (⟨128, true⟩ : FixedState)).get_update_cell =
      some (UpdateCell.fixedLossScaleUpdateCell 128) :=
  (C9_fixed_update_cell ⟨128, true⟩ [true]).2 rfl

/-- Claim C10 (implicit): every reachable dynamic-manager state satisfies
`0 ≤ last_overflow_iter < cur_iter`, and each normally returning call
increments `cur_iter` by exactly 1 and never decreases
`last_overflow_iter`. -/
theorem C10_step_counter_invariant :
    (∀ s : DState, Reachable s →
      0 ≤ s.last_overflow_iter ∧ s.last_overflow_iter < s.cur_iter) ∧
    (∀ (s : DState) (b : Bool) (s' : DState), Reachable s →
      s.update_loss_scale b = .ok s' →
      s'.cur_iter = s.cur_iter + 1 ∧
      s.last_overflow_iter ≤ s'.last_overflow_iter) := by
  constructor
  · intro s hr
    obtain ⟨-, -, -, -, -, h6, h7⟩ := reachable_stableInv s hr
    exact ⟨h6, h7⟩
  · intro s b s' hr hu
    obtain ⟨-, -, -, -, -, h6, h7⟩ := reachable_stableInv s hr
    cases b
    · rw [update_false_eq] at hu
      injection hu with h
      subst h
      exact ⟨rfl, le_refl s.last_overflow_iter⟩
    · by_cases hc : s.bad_step_max < s.bad_step + 1
      · rw [update_true_err s hc] at hu
        exact absurd hu (by simp)
      · rw [update_true_ok s (by omega)] at hu
        injection hu with h
        subst h
        exact ⟨rfl, by dsimp only; omega⟩

/-- Witness for C10 on the freshly constructed `mkDynamic 2 2 1` state. -/
theorem C10_step_counter_invariant_witness :
    0 ≤ dynEx.last_overflow_iter ∧ dynEx.last_overflow_iter < dynEx.cur_iter :=
  C10_step_counter_invariant.1 dynEx ⟨2, 2, 1, dynEx, [], by rfl, rfl⟩

end LossScale
